import Mathlib

/-!
Verification of the distinsta cluster core: the Bully election state machine,
the heartbeat monitor, deterministic hash routing over the alive set, the
round-robin load balancer, and the stream-cipher payload encryption.

Shallow embedding conventions:
  * `u32` node ids become `Nat`; network addresses stay `String`.
  * The shared `HashMap<u32, NodeInfo>` peer registry is modelled as an
    insertion-ordered association list of `(id, address)` pairs with unique
    keys; the reader/writer locks disappear because each operation is
    embedded as a pure state transformer.
  * Network effects are parameters: a liveness probe becomes a function
    `reachable : String → Bool`, a heartbeat round trip becomes a `Bool`
    (did a `HeartbeatAck` arrive in time), an election RPC becomes a
    function `reply : String → Option BullyMessage`, and outbound sends are
    collected into an explicit list of `(address, message)` pairs.
-/

namespace Distinsta

/-- Wire messages of the Bully protocol (src/bully.rs `enum BullyMessage`). -/
inductive BullyMessage where
  | Election (from_id : Nat)
  | Answer (from_id : Nat)
  | Coordinator (leader_id : Nat)
  | Heartbeat (from_id : Nat)
  | HeartbeatAck (from_id : Nat)
  deriving DecidableEq

/-- State owned by `BullyElection` (src/bully.rs): the node's own id and
address are merged with the peer registry and the election flags. `NodeInfo`
entries are stored as `(id, address)` pairs keyed by id. -/
structure BullyState where
  node_id : Nat
  peers : List (Nat × String)
  current_leader : Option Nat
  leader_alive : Bool
  deriving DecidableEq

/-- `BullyElection::set_leader` (src/bully.rs lines 52-58): store the new
leader id and mark the leader alive; the `println!` is dropped. -/
def set_leader (st : BullyState) (leader_id : Nat) : BullyState :=
  { st with current_leader := some leader_id, leader_alive := true }

/-- `BullyElection::handle_message` (src/bully.rs lines 213-257): the reply
(if any) produced for one inbound message, together with the state after the
handler. The `tokio::spawn` of a delayed `start_election` in the `Election`
arm is a concurrent side effect and is not part of the returned reply; the
`Answer` arm is the source's catch-all `_ => None`. -/
def handle_message (st : BullyState) (msg : BullyMessage) :
    BullyState × Option BullyMessage :=
  match msg with
  | .Election from_id =>
      if st.node_id > from_id then
        (st, some (.Answer st.node_id))
      else
        (st, none)
  | .Coordinator leader_id => (set_leader st leader_id, none)
  | .Heartbeat _ => (st, some (.HeartbeatAck st.node_id))
  | .HeartbeatAck _ => (st, none)
  | .Answer _ => (st, none)

/-- `BullyElection::check_leader_alive` (src/bully.rs lines 96-114). The
network round trip of `send_heartbeat` is abstracted into `probe : Bool`,
true exactly when the source's `send_heartbeat` returns `Ok(true)` (a
`HeartbeatAck` arrived within the 2s timeout); every other outcome of the
`match` falls into the `_` arm. When the leader id is absent from the peer
registry the source returns `false` without touching `leader_alive`. -/
def check_leader_alive (st : BullyState) (leader_id : Nat) (probe : Bool) :
    BullyState × Bool :=
  match st.peers.lookup leader_id with
  | some _ =>
      if probe then
        ({ st with leader_alive := true }, true)
      else
        ({ st with leader_alive := false }, false)
  | none => (st, false)

/-- One tick of `BullyElection::start_leader_monitoring` (src/bully.rs lines
69-93) after the 5s sleep: when a leader is known and is not this node, run
`check_leader_alive`; the returned `Bool` records whether the tick invokes
`start_election` (the source calls it exactly when the check returned
false). The election itself is modelled separately by `start_election`. -/
def monitor_tick (st : BullyState) (probe : Bool) : BullyState × Bool :=
  match st.current_leader with
  | some leader_id =>
      if leader_id ≠ st.node_id then
        ((check_leader_alive st leader_id probe).1,
         !(check_leader_alive st leader_id probe).2)
      else
        (st, false)
  | none => (st, false)

/-- `BullyElection::announce_coordinator` (src/bully.rs lines 197-210): the
best-effort sends it attempts, one `Coordinator` per registered peer; the
source discards each send's result (`let _ = ...`). -/
def announce_coordinator (st : BullyState) : List (String × BullyMessage) :=
  st.peers.map (fun p => (p.2, BullyMessage.Coordinator st.node_id))

/-- Whether an election RPC outcome counts as an `Answer` for
`start_election`: the source's `Ok(Some(BullyMessage::Answer { .. }))` arm;
everything else hits its `_ => {}`. -/
def is_answer : Option BullyMessage → Bool
  | some (.Answer _) => true
  | _ => false

/-- `BullyElection::start_election` (src/bully.rs lines 150-194). The
`send_message` RPC to a higher peer is abstracted into
`reply : String → Option BullyMessage` (`none` covers timeout, connection
failure and empty reads). Returns the state after the round together with
the list of attempted sends in order. -/
def start_election (st : BullyState) (reply : String → Option BullyMessage) :
    BullyState × List (String × BullyMessage) :=
  let higher := st.peers.filter (fun p => decide (st.node_id < p.1))
  if higher.isEmpty then
    (set_leader st st.node_id, announce_coordinator st)
  else
    let election_sends := higher.map (fun p => (p.2, BullyMessage.Election st.node_id))
    let received_answer := higher.any (fun p => is_answer (reply p.2))
    if received_answer then
      (st, election_sends)
    else
      (set_leader st st.node_id, election_sends ++ announce_coordinator st)

/-- C3: handle_message on an Election message replies Answer with the local
id exactly when the local id is strictly greater than the sender's, and
stays silent when the local id is less than or equal to the sender's. -/
theorem election_reply_iff (st : BullyState) (from_id : Nat) :
    ((handle_message st (.Election from_id)).2 =
        some (.Answer st.node_id) ↔ st.node_id > from_id) ∧
    (st.node_id ≤ from_id → (handle_message st (.Election from_id)).2 = none) := by
  unfold handle_message
  by_cases h : st.node_id > from_id
  · simp [h, Nat.not_le_of_lt h]
  · simp [h]

/-- Witness for C3: node 1 receiving Election from node 2 stays silent. -/
theorem election_reply_iff_witness :
    (handle_message ⟨1, [], none, true⟩ (.Election 2)).2 = none :=
  (election_reply_iff ⟨1, [], none, true⟩ 2).2 (by decide)

/-- C5: handle_message on a Coordinator message unconditionally installs the
announced leader and marks it alive, whatever the previous leader was, and
produces no reply. -/
theorem coordinator_sets_leader (st : BullyState) (leader_id : Nat) :
    handle_message st (.Coordinator leader_id) =
      ({ st with current_leader := some leader_id, leader_alive := true }, none) :=
  rfl

/-- C8: set_leader is idempotent and establishes current_leader and
leader_alive. -/
theorem set_leader_idempotent (st : BullyState) (k : Nat) :
    set_leader (set_leader st k) k = set_leader st k ∧
    (set_leader st k).leader_alive = true ∧
    (set_leader st k).current_leader = some k :=
  ⟨rfl, rfl, rfl⟩

/-- Client request wire type (src/protocol.rs `enum ClientRequest`); image
bytes become a `List Nat`. -/
inductive ClientRequest where
  | UploadImage (username : String) (image_data : List Nat) (filename : String)
  deriving DecidableEq

/-- Server response wire type (src/protocol.rs `enum ServerResponse`). -/
inductive ServerResponse where
  | EncryptedImageData (data : List Nat)
  | Error (message : String)
  deriving DecidableEq

/-- CTR-mode keystream application: `cipher.apply_keystream` XORs the byte
at position i of the buffer with keystream byte i. The AES-128 keystream is
produced by the external `aes`/`ctr` crates from the 16-byte key and the
all-zero IV (src/encryption.rs lines 9-24); it is modelled as a function
`ks : Nat → Nat` from byte position to keystream byte, determined by the
key since the IV is fixed at zero. -/
def apply_keystream (ks : Nat → Nat) : List Nat → Nat → List Nat
  | [], _ => []
  | b :: rest, i => (b ^^^ ks i) :: apply_keystream ks rest (i + 1)

/-- `encrypt_data` (src/encryption.rs lines 9-15): copy the input and apply
the keystream of the key from position 0. -/
def encrypt_data (ks : Nat → Nat) (data : List Nat) : List Nat :=
  apply_keystream ks data 0

/-- `decrypt_data` (src/encryption.rs lines 18-24): the identical keystream
application, since CTR decryption is CTR encryption. -/
def decrypt_data (ks : Nat → Nat) (data : List Nat) : List Nat :=
  apply_keystream ks data 0

/-- Modelled from the spec: `BullyElection::get_all_peers` is called by
`ServerNode::get_alive_nodes` (src/server.rs line 194) but no such method
appears in src/bully.rs; per the spec's Peer Registry (a mapping id to
NodeInfo read by the routing logic) it returns every registered
(id, address) pair. -/
def get_all_peers (st : BullyState) : List (Nat × String) :=
  st.peers

/-- `ServerNode::get_alive_nodes` (src/server.rs lines 193-222): start from
the local id, add every other registered peer whose 100ms connection probe
succeeds, then sort ascending (`alive.sort()`). The probe is abstracted as
`reachable : String → Bool` over the peer's address. `ServerNode::new` ties
the server's `id` to `bully.node_id`, so the local id is `st.node_id`. -/
def get_alive_nodes (st : BullyState) (reachable : String → Bool) : List Nat :=
  List.insertionSort (· ≤ ·)
    (st.node_id ::
      ((get_all_peers st).filter
        (fun p => p.1 != st.node_id && reachable p.2)).map (fun p => p.1))

/-- Message of the rejection response built at src/server.rs line 165:
`format!("Request assigned to Node \x7b\x7d", assigned_node_id)`. -/
def request_error_message (assigned_node_id : Nat) : String :=
  "Request assigned to Node " ++ toString assigned_node_id

/-- Shared tail of `handle_client_request` (src/server.rs lines 173-187):
derive the key from the username and return the encrypted image. The
SHA-256 key derivation composed with the AES-CTR keystream is abstracted as
`keyStream : String → Nat → Nat`, the keystream of the key
`generate_key_from_username(username)`. -/
def process_upload (keyStream : String → Nat → Nat) (username : String)
    (image_data : List Nat) : ServerResponse :=
  ServerResponse.EncryptedImageData (encrypt_data (keyStream username) image_data)

/-- The indexing `alive_nodes[assigned_index]` at src/server.rs lines
158-159 with `assigned_index = request_hash % alive_nodes.len()`; the
default is never used because the index is below the length whenever the
list is non-empty. -/
def assigned_node (alive : List Nat) (request_hash : Nat) : Nat :=
  alive.getD (request_hash % alive.length) 0

/-- `ServerNode::handle_client_request` (src/server.rs lines 132-190). The
`DefaultHasher` over (username, filename) is a deterministic function of
its two inputs and is abstracted as `hash : String → String → Nat`. -/
def handle_client_request (st : BullyState) (reachable : String → Bool)
    (hash : String → String → Nat) (keyStream : String → Nat → Nat)
    (request : ClientRequest) : ServerResponse :=
  match request with
  | .UploadImage username image_data filename =>
      let request_hash := hash username filename
      let alive_nodes := get_alive_nodes st reachable
      if alive_nodes.isEmpty then
        process_upload keyStream username image_data
      else
        let assigned_node_id := assigned_node alive_nodes request_hash
        if assigned_node_id != st.node_id then
          ServerResponse.Error (request_error_message assigned_node_id)
        else
          process_upload keyStream username image_data

theorem self_mem_get_alive_nodes (st : BullyState) (reachable : String → Bool) :
    st.node_id ∈ get_alive_nodes st reachable := by
  unfold get_alive_nodes
  rw [List.mem_insertionSort]
  exact List.mem_cons_self _ _

theorem get_alive_nodes_ne_nil (st : BullyState) (reachable : String → Bool) :
    get_alive_nodes st reachable ≠ [] := by
  intro h
  simpa [h] using self_mem_get_alive_nodes st reachable

theorem isEmpty_eq_false_of_ne_nil {l : List Nat} (h : l ≠ []) :
    l.isEmpty = false := by
  cases l with
  | nil => exact absurd rfl h
  | cons a as => rfl

theorem getD_mem_of_lt {l : List Nat} {i : Nat} (hi : i < l.length) (d : Nat) :
    l.getD i d ∈ l := by
  rw [List.getD_eq_getElem?_getD, List.getElem?_eq_getElem hi]
  exact List.getElem_mem hi

theorem assigned_node_mem {alive : List Nat} (h : alive ≠ []) (request_hash : Nat) :
    assigned_node alive request_hash ∈ alive :=
  getD_mem_of_lt (Nat.mod_lt _ (List.length_pos.mpr h)) 0

/-- C7: the alive set always contains the local node id and is sorted
ascending, hence is never empty, so the empty-alive-set fallback branch of
handle_client_request is unreachable (its guard is always false). -/
theorem alive_set_self_sorted_nonempty (st : BullyState) (reachable : String → Bool) :
    st.node_id ∈ get_alive_nodes st reachable ∧
    (get_alive_nodes st reachable).Sorted (· ≤ ·) ∧
    (get_alive_nodes st reachable).isEmpty = false :=
  ⟨self_mem_get_alive_nodes st reachable,
   List.sorted_insertionSort _ _,
   isEmpty_eq_false_of_ne_nil (get_alive_nodes_ne_nil st reachable)⟩

/-- C1: the routed request is assigned to the alive node at index
hash mod length of the alive set; a node that is not the assigned one
rejects with an Error naming the assigned id (no encryption happens), and
the assigned node itself replies with the image encrypted under the key
derived from the requester. -/
theorem handle_client_request_routing (st : BullyState) (reachable : String → Bool)
    (hash : String → String → Nat) (keyStream : String → Nat → Nat)
    (username : String) (image_data : List Nat) (filename : String) :
    assigned_node (get_alive_nodes st reachable) (hash username filename) ∈
      get_alive_nodes st reachable ∧
    (assigned_node (get_alive_nodes st reachable) (hash username filename) ≠ st.node_id →
      handle_client_request st reachable hash keyStream
          (.UploadImage username image_data filename) =
        ServerResponse.Error (request_error_message
          (assigned_node (get_alive_nodes st reachable) (hash username filename)))) ∧
    (assigned_node (get_alive_nodes st reachable) (hash username filename) = st.node_id →
      handle_client_request st reachable hash keyStream
          (.UploadImage username image_data filename) =
        ServerResponse.EncryptedImageData (encrypt_data (keyStream username) image_data)) := by
  have hne := get_alive_nodes_ne_nil st reachable
  refine ⟨assigned_node_mem hne _, ?_, ?_⟩ <;> intro hcase <;>
    simp [handle_client_request, isEmpty_eq_false_of_ne_nil hne, process_upload, hcase]

/-- Witness for C1: node 1 alone (no peers) computes alive set containing
only itself, is assigned every request, and replies with encrypted data. -/
theorem handle_client_request_routing_witness :
    handle_client_request ⟨1, [], none, true⟩ (fun _ => false)
        (fun _ _ => 0) (fun _ _ => 0) (.UploadImage "u" [7] "f") =
      ServerResponse.EncryptedImageData
        (encrypt_data ((fun _ _ => 0) "u") [7]) :=
  (handle_client_request_routing ⟨1, [], none, true⟩ (fun _ => false)
      (fun _ _ => 0) (fun _ _ => 0) "u" [7] "f").2.2 (by decide)

/-- The assignment computed inside handle_client_request, as a function of
the node's state and probe outcomes (src/server.rs lines 158-159). -/
def route_assignment (st : BullyState) (reachable : String → Bool)
    (hash : String → String → Nat) (username filename : String) : Nat :=
  assigned_node (get_alive_nodes st reachable) (hash username filename)

/-- C2: the routing assignment is a deterministic function of the alive set
and the (requester, resource) pair: any two nodes whose computed alive sets
agree compute the same assigned id, namely the alive entry at index
hash mod length, independently of their own node ids. -/
theorem routing_deterministic (hash : String → String → Nat)
    (st1 st2 : BullyState) (r1 r2 : String → Bool) (username filename : String)
    (h : get_alive_nodes st1 r1 = get_alive_nodes st2 r2) :
    route_assignment st1 r1 hash username filename =
      route_assignment st2 r2 hash username filename ∧
    route_assignment st1 r1 hash username filename =
      (get_alive_nodes st1 r1).getD
        (hash username filename % (get_alive_nodes st1 r1).length) 0 := by
  constructor
  · unfold route_assignment
    rw [h]
  · rfl

/-- Witness for C2: nodes 3 (probing peer 2) and 2 (probing peer 3) both
compute the alive set [2, 3] and agree on the assignment. -/
theorem routing_deterministic_witness :
    route_assignment ⟨3, [(2, "b")], none, true⟩ (fun _ => true)
        (fun u f => u.length + f.length) "u" "f" =
      route_assignment ⟨2, [(3, "a")], none, true⟩ (fun _ => true)
        (fun u f => u.length + f.length) "u" "f" :=
  (routing_deterministic (fun u f => u.length + f.length)
      ⟨3, [(2, "b")], none, true⟩ ⟨2, [(3, "a")], none, true⟩
      (fun _ => true) (fun _ => true) "u" "f" (by decide)).1

theorem apply_keystream_involutive (ks : Nat → Nat) (data : List Nat) :
    ∀ i, apply_keystream ks (apply_keystream ks data i) i = data := by
  induction data with
  | nil => intro i; rfl
  | cons b rest ih =>
      intro i
      simp [apply_keystream, ih, Nat.xor_cancel_right]

theorem apply_keystream_length (ks : Nat → Nat) (data : List Nat) :
    ∀ i, (apply_keystream ks data i).length = data.length := by
  induction data with
  | nil => intro i; rfl
  | cons b rest ih =>
      intro i
      simp [apply_keystream, ih]

/-- C10: decrypting an encryption with the same key recovers the input, and
encryption preserves length; both hold for the keystream of any key. -/
theorem encrypt_decrypt_roundtrip (ks : Nat → Nat) (data : List Nat) :
    decrypt_data ks (encrypt_data ks data) = data ∧
    (encrypt_data ks data).length = data.length :=
  ⟨apply_keystream_involutive ks data 0, apply_keystream_length ks data 0⟩

/-- Counterexample to C4 as stated: node 1 believes node 2 is leader but
node 2 is absent from the peer registry. The tick does trigger an election,
yet leader_alive is left at true rather than being marked false. -/
theorem monitor_tick_missing_peer_counterexample :
    (monitor_tick ⟨1, [], some 2, true⟩ false).1.leader_alive ≠ false ∧
    (monitor_tick ⟨1, [], some 2, true⟩ false).2 = true := by
  decide

/-- C4 (amended): on a heartbeat-monitor tick where the known leader is not
this node, a HeartbeatAck reply marks leader_alive true and triggers no
election; a failed probe (timeout, refusal, wrong message) marks
leader_alive false and triggers startElection; a leader id missing from the
peer registry still triggers startElection but leaves the state unchanged. -/
theorem monitor_tick_spec (st : BullyState) (probe : Bool) (lid : Nat)
    (hlead : st.current_leader = some lid) (hne : lid ≠ st.node_id) :
    ((st.peers.lookup lid).isSome →
        (probe = true →
          (monitor_tick st probe).1.leader_alive = true ∧
          (monitor_tick st probe).2 = false) ∧
        (probe = false →
          (monitor_tick st probe).1.leader_alive = false ∧
          (monitor_tick st probe).2 = true)) ∧
    (st.peers.lookup lid = none →
        (monitor_tick st probe).1 = st ∧ (monitor_tick st probe).2 = true) := by
  unfold monitor_tick check_leader_alive
  rw [hlead]
  simp only [if_pos hne]
  cases hfind : st.peers.lookup lid
  · simp
  · cases probe <;> simp

/-- Witness for C4 (amended): node 1 monitors leader 2, registered at "b";
the probe fails, so leader_alive is marked false and an election starts. -/
theorem monitor_tick_spec_witness :
    (monitor_tick ⟨1, [(2, "b")], some 2, true⟩ false).1.leader_alive = false ∧
    (monitor_tick ⟨1, [(2, "b")], some 2, true⟩ false).2 = true :=
  ((monitor_tick_spec ⟨1, [(2, "b")], some 2, true⟩ false 2 rfl
      (by decide)).1 (by decide)).2 rfl

/-- C6: a node with no strictly-higher registered peer self-declares leader,
sends Coordinator with its own id to every registered peer, sends no
Election message, and the outcome does not depend on any RPC replies. -/
theorem self_election_no_higher_peer (st : BullyState)
    (reply other_reply : String → Option BullyMessage)
    (h : ∀ p ∈ st.peers, p.1 ≤ st.node_id) :
    (start_election st reply).1.current_leader = some st.node_id ∧
    (start_election st reply).2 =
      st.peers.map (fun p => (p.2, BullyMessage.Coordinator st.node_id)) ∧
    (∀ s ∈ (start_election st reply).2, ∀ f, s.2 ≠ BullyMessage.Election f) ∧
    start_election st reply = start_election st other_reply := by
  have hfilter : st.peers.filter (fun p => decide (st.node_id < p.1)) = [] := by
    rw [List.filter_eq_nil_iff]
    intro p hp
    simpa using Nat.not_lt_of_le (h p hp)
  unfold start_election
  rw [hfilter]
  simp only [List.isEmpty_nil, if_pos rfl]
  refine ⟨rfl, rfl, ?_, rfl⟩
  intro s hs f
  unfold announce_coordinator at hs
  obtain ⟨p, _, hp⟩ := List.mem_map.mp hs
  rw [← hp]
  simp

/-- Witness for C6: node 3 with lower-id peers 1 and 2 self-declares and
broadcasts Coordinator 3 to both of them. -/
theorem self_election_no_higher_peer_witness :
    (start_election ⟨3, [(1, "a"), (2, "b")], none, true⟩ (fun _ => none)).1.current_leader =
      some 3 ∧
    (start_election ⟨3, [(1, "a"), (2, "b")], none, true⟩ (fun _ => none)).2 =
      [("a", BullyMessage.Coordinator 3), ("b", BullyMessage.Coordinator 3)] := by
  have h := self_election_no_higher_peer ⟨3, [(1, "a"), (2, "b")], none, true⟩
    (fun _ => none) (fun _ => none) (by decide)
  exact ⟨h.1, h.2.1⟩

/-- Entry of the load balancer registry (src/loadbalancer.rs
`struct ServerLoad`). -/
structure ServerLoad where
  server_id : Nat
  address : String
  current_load : Nat
  available : Bool
  deriving DecidableEq

/-- `LoadBalancer` (src/loadbalancer.rs): the `HashMap<u32, ServerLoad>` is
modelled as the list of its entries in the map's value-iteration order,
with unique `server_id` keys, and the round-robin cursor `next_index` as a
plain counter. `HashMap::values()` iterates in an arbitrary per-instance
order (not insertion order), so any order-sensitive theorem below
quantifies over every permutation of the registered entries. -/
structure LoadBalancer where
  servers : List ServerLoad
  next_index : Nat
  deriving DecidableEq

/-- `LoadBalancer::new` (src/loadbalancer.rs lines 19-24). -/
def LoadBalancer.new : LoadBalancer :=
  { servers := [], next_index := 0 }

/-- `LoadBalancer::register_server` (src/loadbalancer.rs lines 27-39):
`HashMap::insert` keyed by the id, so an existing id is overwritten and a
new id is added. The list produced here is the canonical insertion-ordered
representative of the map's contents; the map's actual value-iteration
order is an arbitrary permutation of it, which the order-sensitive
theorems below quantify over. -/
def register_server (lb : LoadBalancer) (server_id : Nat) (address : String) :
    LoadBalancer :=
  let entry : ServerLoad :=
    { server_id := server_id, address := address, current_load := 0, available := true }
  if lb.servers.any (fun s => s.server_id == server_id) then
    { lb with servers :=
        lb.servers.map (fun s => if s.server_id == server_id then entry else s) }
  else
    { lb with servers := lb.servers ++ [entry] }

/-- `LoadBalancer::get_next_server` (src/loadbalancer.rs lines 49-70):
collect the available servers in the map's value-iteration order (the
order of `lb.servers`), read the entry at cursor mod count, then store
cursor + 1 mod count. The `getD` default is never used since the branch
requires a non-empty filtered list. -/
def get_next_server (lb : LoadBalancer) : Option (Nat × String) × LoadBalancer :=
  if lb.servers.isEmpty then
    (none, lb)
  else
    let available_servers := lb.servers.filter (fun s => s.available)
    if available_servers.isEmpty then
      (none, lb)
    else
      let server := available_servers.getD
        (lb.next_index % available_servers.length)
        { server_id := 0, address := "", current_load := 0, available := false }
      (some (server.server_id, server.address),
       { lb with next_index := (lb.next_index + 1) % available_servers.length })

/-- A fresh balancer with servers 10, 11, 12 registered in that order; its
entry list is the canonical representative of the map's contents. -/
def lb_registered : LoadBalancer :=
  register_server (register_server (register_server LoadBalancer.new 10 "s10") 11 "s11")
    12 "s12"

/-- Counterexample to C9 as stated: the list [entry 11, entry 10, entry 12]
is a permutation of the registered entries, hence a possible
HashMap::values() iteration order for the very same map contents, and on it
the first get_next_server call yields server 11, not server 10 — so the
code does not guarantee registration order. -/
theorem round_robin_registration_order_counterexample :
    ([⟨11, "s11", 0, true⟩, ⟨10, "s10", 0, true⟩, ⟨12, "s12", 0, true⟩] :
        List ServerLoad).Perm lb_registered.servers ∧
    (get_next_server
        ⟨[⟨11, "s11", 0, true⟩, ⟨10, "s10", 0, true⟩, ⟨12, "s12", 0, true⟩], 0⟩).1 =
      some (11, "s11") ∧
    (get_next_server
        ⟨[⟨11, "s11", 0, true⟩, ⟨10, "s10", 0, true⟩, ⟨12, "s12", 0, true⟩], 0⟩).1 ≠
      some (10, "s10") := by
  refine ⟨List.Perm.swap _ _ _, rfl, by decide⟩

/-- C9 (amended): after registering servers 10, 11, 12 in a fresh balancer,
whatever value-iteration order l the map settles on (any permutation of the
registered entries), three consecutive get_next_server calls yield each
server id exactly once, in the order of l, and the next three calls repeat
that cycle: the cursor persists across calls and wraps modulo the current
available-server count. -/
theorem round_robin_cycle_any_order (l : List ServerLoad)
    (hperm : l.Perm lb_registered.servers) :
    ∃ a b c, l = [a, b, c] ∧
      [a.server_id, b.server_id, c.server_id].Perm [10, 11, 12] ∧
      (get_next_server ⟨l, 0⟩).1 = some (a.server_id, a.address) ∧
      (get_next_server (get_next_server ⟨l, 0⟩).2).1 =
        some (b.server_id, b.address) ∧
      (get_next_server (get_next_server (get_next_server ⟨l, 0⟩).2).2).1 =
        some (c.server_id, c.address) ∧
      (get_next_server (get_next_server (get_next_server
          (get_next_server ⟨l, 0⟩).2).2).2).1 = some (a.server_id, a.address) ∧
      (get_next_server (get_next_server (get_next_server (get_next_server
          (get_next_server ⟨l, 0⟩).2).2).2).2).1 = some (b.server_id, b.address) ∧
      (get_next_server (get_next_server (get_next_server (get_next_server
          (get_next_server (get_next_server ⟨l, 0⟩).2).2).2).2).2).1 =
        some (c.server_id, c.address) := by
  have hserv : lb_registered.servers =
      [⟨10, "s10", 0, true⟩, ⟨11, "s11", 0, true⟩, ⟨12, "s12", 0, true⟩] := rfl
  rw [hserv] at hperm
  have hlen : l.length = 3 := by rw [hperm.length_eq]; rfl
  obtain ⟨a, b, c, rfl⟩ := List.length_eq_three.mp hlen
  have hmem : ∀ s ∈ [a, b, c], s.available = true := by
    intro s hs
    have hs2 := hperm.mem_iff.mp hs
    simp only [List.mem_cons, List.not_mem_nil, or_false] at hs2
    rcases hs2 with rfl | rfl | rfl <;> rfl
  have ha : a.available = true := hmem a (by simp)
  have hb : b.available = true := hmem b (by simp)
  have hc : c.available = true := hmem c (by simp)
  refine ⟨a, b, c, rfl, ?_, ?_, ?_, ?_, ?_, ?_, ?_⟩
  · simpa using hperm.map (fun s => s.server_id)
  all_goals simp [get_next_server, ha, hb, hc]

/-- Witness for C9 (amended): instantiated at the canonical iteration order
itself, the first call yields server 10. -/
theorem round_robin_cycle_any_order_witness :
    (get_next_server ⟨lb_registered.servers, 0⟩).1 = some (10, "s10") := by
  obtain ⟨a, b, c, heq, -, h1, -⟩ :=
    round_robin_cycle_any_order lb_registered.servers (List.Perm.refl _)
  have hserv : lb_registered.servers =
      [⟨10, "s10", 0, true⟩, ⟨11, "s11", 0, true⟩, ⟨12, "s12", 0, true⟩] := rfl
  rw [hserv] at heq
  simp only [List.cons.injEq, and_true] at heq
  obtain ⟨ha, hb, hc⟩ := heq
  rw [← ha] at h1
  exact h1

end Distinsta
